import Mathlib

/-!
Verification of `plantcv.plantcv.analyze_color`
(`src/plantcv/plantcv/analyze_color.py`).

The routine is embedded shallowly.  Images are carried as their numpy shape
plus the row-major flattened list of three-channel pixels (the function never
uses the 2-D structure, only flattened channels and element-wise masking).
The color-space conversions `cv2.cvtColor(..., COLOR_BGR2LAB)` and
`cv2.cvtColor(..., COLOR_BGR2HSV)` are delegated library math (a declared
non-goal of the spec), so `analyze_color` takes the per-pixel conversion maps
`bgr2lab` and `bgr2hsv` as explicit functional parameters; every theorem below
holds for all conversions unless it instantiates them concretely.
The delegated statistics calls (`scipy.stats.circmean`, `scipy.stats.circstd`,
`np.median`) are embedded symbolically: their result records which statistic
was requested, with which period, over which sample sequence, and `nan` when
the sample is empty (numpy/scipy propagate NaN from an empty sample).
`params.debug` is modeled as off: debug printing/saving is a presentation
side channel the spec excludes, and it touches no state the claims mention.
-/

/-- A three-channel 8-bit pixel.  `ch0, ch1, ch2` are the planes returned by
`cv2.split`: for a BGR image blue, green, red; for the derived LAB image
lightness, green-magenta, blue-yellow; for the derived HSV image hue,
saturation, value. -/
structure Px where
  ch0 : Nat
  ch1 : Nat
  ch2 : Nat
  deriving DecidableEq, Repr

/-- The identity per-pixel map, used to instantiate the delegated color-space
conversion parameters in concrete evaluations.  The facts evaluated at it do
not depend on the conversion chosen (they concern either the BGR channels,
which bypass the conversions, or the data flow downstream of the hue plane). -/
def idPx (p : Px) : Px := p

/-- A numpy array argument to `analyze_color`: its `np.shape`, and, when it is
a height-by-width-by-3 color image, the row-major list of its pixels. -/
structure NpImg where
  shape : List Nat
  pix : List Px
  deriving DecidableEq, Repr

/-- Result of a delegated statistics call.  `circmean`/`circstd` record a
scipy circular statistic with the given upper bound (`high`, the period) over
the recorded sample sequence; `median` an ordinary (non-circular) numpy
median; `nan` is what scipy/numpy produce on an empty sample. -/
inductive Stat where
  | nan : Stat
  | circmean (high : Nat) (seq : List Nat) : Stat
  | circstd (high : Nat) (seq : List Nat) : Stat
  | median (seq : List Nat) : Stat
  deriving DecidableEq, Repr

/-- `scipy.stats.circmean(seq, high)`: NaN on an empty sample (the mean of an
empty array is NaN), otherwise the circular mean of `seq` with period `high`. -/
def scipyCircmean (seq : List Nat) (high : Nat) : Stat :=
  if seq.isEmpty then .nan else .circmean high seq

/-- `scipy.stats.circstd(seq, high)`: NaN on an empty sample, otherwise the
circular standard deviation of `seq` with period `high`. -/
def scipyCircstd (seq : List Nat) (high : Nat) : Stat :=
  if seq.isEmpty then .nan else .circstd high seq

/-- `np.median(seq)`: NaN on an empty sample, otherwise the ordinary median. -/
def npMedian (seq : List Nat) : Stat :=
  if seq.isEmpty then .nan else .median seq

/-- A value placed in the result record or in the shared output store. -/
inductive MVal where
  | str (s : String)
  | nat (n : Nat)
  | nats (l : List Nat)
  | stat (s : Stat)
  deriving DecidableEq, Repr

/-- A plotnine histogram figure, as the four plotting branches build it: the
melted value columns (`value_vars`) and the manual color scale. -/
structure HistFig where
  value_vars : List String
  colors : List String
  deriving DecidableEq, Repr

/-- A raised python exception aborting the call: `fatal_error` messages and
the library errors (`cv2.error`, `ZeroDivisionError`) surface this way. -/
inductive PCVError where
  | fatal (msg : String)
  deriving DecidableEq, Repr

deriving instance DecidableEq for Except

/-- The shared output store (`plantcv.outputs`): `measurements` is a dict of
category name to a dict of field name to value, and `images` accumulates one
entry per call, the list of plot artifacts of that call. -/
structure Outputs where
  measurements : List (String × List (String × MVal))
  images : List (List HistFig)
  deriving DecidableEq, Repr

/-- Process-wide mutable state used by the call: `params.device` and the
shared output store. -/
structure PState where
  device : Nat
  outputs : Outputs
  deriving DecidableEq, Repr

/-- Python dict lookup on an insertion-ordered association list. -/
def dictGet {α : Type} (k : String) : List (String × α) → Option α
  | [] => none
  | p :: ps => if p.1 = k then some p.2 else dictGet k ps

/-- Python dict assignment: replaces the value in place when the key exists,
otherwise appends the new binding. -/
def dictSet {α : Type} (k : String) (v : α) : List (String × α) → List (String × α)
  | [] => [(k, v)]
  | p :: ps => if p.1 = k then (k, v) :: ps else p :: dictSet k v ps

/-- Two-level lookup `outputs.measurements[cat][k]`. -/
def dictGet2 (cat k : String) (ms : List (String × List (String × MVal))) : Option MVal :=
  match dictGet cat ms with
  | some inner => dictGet k inner
  | none => none

/-- `outputs.measurements[cat][k] = v`: updates the inner dict of category
`cat`.  The category is always present when the code executes this (it is
inserted first), so the missing-category branch is unreachable there. -/
def setField (ms : List (String × List (String × MVal))) (cat k : String) (v : MVal) :
    List (String × List (String × MVal)) :=
  match dictGet cat ms with
  | some inner => dictSet cat (dictSet k v inner) ms
  | none => ms

/-- Lines 232-247: ensure the `color_data` category exists, then assign each
measurement field in order under it. -/
def storeColorData (ms : List (String × List (String × MVal)))
    (fields : List (String × MVal)) : List (String × List (String × MVal)) :=
  let ms0 :=
    match dictGet "color_data" ms with
    | some _ => ms
    | none => dictSet "color_data" [] ms
  fields.foldl (fun m kv => setField m "color_data" kv.1 kv.2) ms0

/-- Line 39, `cv2.bitwise_and(rgb_img, rgb_img, mask=mask)`: keep the pixel
where the mask is non-zero, black it out where the mask is 0. -/
def maskedPixels (pix : List Px) (mask : List Nat) : List Px :=
  (pix.zip mask).map fun p => if p.2 ≠ 0 then p.1 else ⟨0, 0, 0⟩

/-- Lines 40-44: the nine split channels of the masked image, in the order
b, g, r (BGR), l, m, y (LAB), h, s, v (HSV). -/
def channels9 (bgr2lab bgr2hsv : Px → Px) (masked : List Px) : List (List Nat) :=
  let labp := masked.map bgr2lab
  let hsvp := masked.map bgr2hsv
  [masked.map Px.ch0, masked.map Px.ch1, masked.map Px.ch2,
   labp.map Px.ch0, labp.map Px.ch1, labp.map Px.ch2,
   hsvp.map Px.ch0, hsvp.map Px.ch1, hsvp.map Px.ch2]

/-- The raw hue plane of the HSV representation of the masked image: exactly
the `h` that line 157 flattens (the variable from `cv2.split(hsv)`, not the
quantized `norm_channels["h"]`). -/
def hueRawOf (bgr2hsv : Px → Px) (masked : List Px) : List Nat :=
  (masked.map bgr2hsv).map Px.ch0

/-- Lines 47-56, `np.divide(ch, 256 / bins).astype(np.uint8)`: quantization of
an 8-bit value by division by `256 / bins` and truncation, i.e. the value
`v * bins / 256` in exact integer arithmetic.  (The python code divides by the
double `256 / bins`; for `v ≤ 255` and `bins ≤ 256` the truncated quotient is
the exact one except possibly at non-representable bin boundaries, a float
artifact no claim depends on, and the spec itself describes the step as
integer division of the 8-bit range.) -/
def normQuant (bins v : Nat) : Nat := v * bins / 256

/-- The channel values at the positions where the mask is non-zero: the
pixels `cv2.calcHist` counts when given `mask`. -/
def maskedIn (ch mask : List Nat) : List Nat :=
  ((ch.zip mask).filter fun p => p.2 != 0).map Prod.fst

/-- The bin `cv2.calcHist` assigns to value `v` for a uniform histogram of
`bins` bins over the range `[0, bins - 1]`: `⌊v * bins / (bins - 1)⌋`.  The
upper boundary of the range is exclusive, so a value is counted only when its
bin index is below `bins` — equivalently only when `v < bins - 1`. -/
def histBin (bins v : Nat) : Nat := v * bins / (bins - 1)

/-- Lines 67-86, `cv2.calcHist([ch], [0], mask, [bins], [0, bins - 1])`: for
each bin index the number of mask-selected channel values assigned to it. -/
def calcHist (ch mask : List Nat) (bins : Nat) : List Nat :=
  (List.range bins).map fun i =>
    ((maskedIn ch mask).filter fun v => histBin bins v == i).length

/-- The nine histograms `hist_data_b, ..., hist_data_v` of lines 88-96: the
masked histogram of each quantized channel. -/
def histsOf (bgr2lab bgr2hsv : Px → Px) (masked : List Px) (mask : List Nat)
    (bins : Nat) : List (List Nat) :=
  (channels9 bgr2lab bgr2hsv masked).map fun ch =>
    calcHist (ch.map (normQuant bins)) mask bins

/-- `collections.Counter(h)` key list: the distinct values of `h` in first
occurrence order. -/
def counterKeys (l : List Nat) : List Nat :=
  l.foldl (fun ks x => if x ∈ ks then ks else ks ++ [x]) []

/-- `collections.Counter(h)` (line 160): each distinct value of `l` paired
with its multiplicity, keys in first-occurrence order. -/
def pyCounter (l : List Nat) : List (Nat × Nat) :=
  (counterKeys l).map fun v => (v, l.count v)

/-- `del c[k]` on a Counter (line 162).  `Counter.__delitem__` removes the key
when present and, unlike a plain dict delete, does not raise `KeyError` when
the key is missing, so this is total. -/
def counterDel (c : List (Nat × Nat)) (k : Nat) : List (Nat × Nat) :=
  c.filter fun p => p.1 != k

/-- Insertion step of sorting key-multiplicity pairs by key. -/
def insertByKey (p : Nat × Nat) : List (Nat × Nat) → List (Nat × Nat)
  | [] => [p]
  | q :: qs => if p.1 ≤ q.1 then p :: q :: qs else q :: insertByKey p qs

/-- Line 165, `dict(sorted(c.items(), key=lambda t: t[0]))`: the counter
items in ascending key order. -/
def sortByKey (l : List (Nat × Nat)) : List (Nat × Nat) :=
  l.foldr insertByKey []

/-- Insertion step of sorting naturals ascending. -/
def insertNat (v : Nat) : List Nat → List Nat
  | [] => [v]
  | w :: ws => if v ≤ w then v :: w :: ws else w :: insertNat v ws

/-- Ascending sort of a list of naturals. -/
def sortNat (l : List Nat) : List Nat := l.foldr insertNat []

/-- The expansion loop of lines 168-176: for each key-multiplicity pair in
order, the key repeated multiplicity times. -/
def expandCounts : List (Nat × Nat) → List Nat
  | [] => []
  | p :: ps => List.replicate p.2 p.1 ++ expandCounts ps

/-- `temp_hue_list_hsv` (lines 156-176): count the flattened hue plane,
delete the background key 0, sort the items by key, and expand each surviving
hue value to multiplicity many copies. -/
def hueSequence (h : List Nat) : List Nat :=
  expandCounts (sortByKey (counterDel (pyCounter h) 0))

/-- The hue-observation sequence exactly as the spec (section 4.4) words the
algorithm: count the frequency of each distinct hue value, discard the
frequency entry for value 0 (background), and expand back into a flat
sequence in which value `v` appears `count[v]` times, taking the surviving
distinct values in ascending order. -/
def spec_hue_observations (ch : List Nat) : List Nat :=
  (sortNat ((counterKeys ch).filter fun v => v != 0)).flatMap
    fun v => List.replicate (ch.count v) v

/-- Python `str.upper()` as the code applies it to the plot-type selector:
per-character ASCII upper-casing.  (The four keywords compared against are
pure ASCII, where python and this map agree.) -/
def pyUpper (s : String) : String :=
  ⟨s.data.map Char.toUpper⟩

/-- Lines 109-154: the figure appended to `analysis_images`, selected by the
upper-cased plot type; the branches are tried in the order RGB, LAB, HSV,
ALL.  `None` builds nothing. -/
def figsOf (pt : Option String) : List HistFig :=
  match pt with
  | none => []
  | some s =>
    if pyUpper s = "RGB" then
      [⟨["blue", "green", "red"], ["blue", "green", "red"]⟩]
    else if pyUpper s = "LAB" then
      [⟨["lightness", "green-magenta", "blue-yellow"], ["yellow", "magenta", "dimgray"]⟩]
    else if pyUpper s = "HSV" then
      [⟨["hue", "saturation", "value"], ["blueviolet", "cyan", "orange"]⟩]
    else if pyUpper s = "ALL" then
      [⟨["blue", "green", "red", "lightness", "green-magenta", "blue-yellow",
         "hue", "saturation", "value"],
        ["blue", "yellow", "green", "magenta", "blueviolet", "dimgray",
         "red", "cyan", "orange"]⟩]
    else []

/-- `color_header` (lines 185-201). -/
def color_header : List String :=
  ["HEADER_COLOR", "bin-number", "bin-values", "blue", "green", "red",
   "lightness", "green-magenta", "blue-yellow", "hue", "saturation", "value",
   "circular_mean", "circular_std", "median"]

/-- The store field names of the nine histograms, in channel order. -/
def histNames : List String :=
  ["blue", "green", "red", "lightness", "green-magenta", "blue-yellow",
   "hue", "saturation", "value"]

/-- The 14 fields written under `color_data` (lines 234-247), in assignment
order. -/
def colorFields (bins : Nat) (hists : List (List Nat)) (cm cs md : Stat) :
    List (String × MVal) :=
  [("bin-number", MVal.nat bins), ("bin-values", MVal.nats (List.range bins))]
  ++ (histNames.zip hists).map (fun p => (p.1, MVal.nats p.2))
  ++ [("mean", MVal.stat cm), ("standard-deviation", MVal.stat cs),
      ("median", MVal.stat md)]

/-- The `color_data` store fields of a call, as a function of its inputs. -/
def colorFieldsOf (bgr2lab bgr2hsv : Px → Px) (masked : List Px) (mask : List Nat)
    (bins : Nat) : List (String × MVal) :=
  let seq := hueSequence (hueRawOf bgr2hsv masked)
  colorFields bins (histsOf bgr2lab bgr2hsv masked mask bins)
    (scipyCircmean seq 180) (scipyCircstd seq 180) (npMedian seq)

/-- `color_data` (lines 203-219): the 15-element value list of the result
record — the marker string, the bin count, the bin axis `0..bins-1`
(lines 98-99), the nine histograms, and the three hue statistics computed on
`temp_hue_list_hsv` with period 180 (lines 179-182). -/
def dataOf (bgr2lab bgr2hsv : Px → Px) (masked : List Px) (mask : List Nat)
    (bins : Nat) : List MVal :=
  let seq := hueSequence (hueRawOf bgr2hsv masked)
  [MVal.str "COLOR_DATA", MVal.nat bins, MVal.nats (List.range bins)]
  ++ (histsOf bgr2lab bgr2hsv masked mask bins).map MVal.nats
  ++ [MVal.stat (scipyCircmean seq 180), MVal.stat (scipyCircstd seq 180),
      MVal.stat (npMedian seq)]

/-- The successful remainder of the call once every check has passed: build
the figures, the result record and the hue statistics, merge the fields into
the store under `color_data` (lines 231-247), and append the artifact
list of this call to the accumulated images (line 250). -/
def analyze_color_main (bgr2lab bgr2hsv : Px → Px) (masked : List Px)
    (mask : List Nat) (bins : Nat) (pt : Option String) (st : PState) :
    Except PCVError (List String × List MVal × List HistFig) × PState :=
  let figs := figsOf pt
  (.ok (color_header, dataOf bgr2lab bgr2hsv masked mask bins, figs),
   { st with
       outputs :=
         { measurements :=
             storeColorData st.outputs.measurements
               (colorFieldsOf bgr2lab bgr2hsv masked mask bins),
           images := st.outputs.images ++ [figs] } })

/-- The message of the plot-type `fatal_error` (lines 65-66). -/
def plotErrMsg (s : String) : String :=
  "The histogram plot type was " ++ s ++
    ", but can only be one of the following: None, \"all\", \"rgb\", \"lab\", or \"hsv\"!"

/-- The plot-type selector is `None` or upper-cases into the `hist_types`
keys (lines 59-64). -/
def validPlotType (pt : Option String) : Bool :=
  match pt with
  | none => true
  | some s => (["ALL", "RGB", "LAB", "HSV"] : List String).contains (pyUpper s)

/-- `plantcv.plantcv.analyze_color(rgb_img, mask, bins, hist_plot_type)`.

The fallible steps occur in source order: `params.device` is incremented
first (line 34); the dimensionality check (lines 36-37) raises
`fatal_error("rgb_img must be an RGB image")`; `cv2.bitwise_and` (line 39)
raises a `cv2.error` when the mask size differs from the image size;
computing `256 / bins` (line 47) raises `ZeroDivisionError` when `bins = 0`;
the plot-type check (lines 64-66) raises its `fatal_error`; afterwards the
call completes.  Each raise leaves the state as mutated so far (only the
device counter). -/
def analyze_color (bgr2lab bgr2hsv : Px → Px) (rgb_img : NpImg) (mask : List Nat)
    (bins : Nat) (hist_plot_type : Option String) (st : PState) :
    Except PCVError (List String × List MVal × List HistFig) × PState :=
  let st1 : PState := { st with device := st.device + 1 }
  if rgb_img.shape.length < 3 then
    (.error (.fatal "rgb_img must be an RGB image"), st1)
  else if mask.length ≠ rgb_img.pix.length then
    (.error (.fatal "cv2.error: mask must have the same size as the image"), st1)
  else if bins = 0 then
    (.error (.fatal "ZeroDivisionError: division by zero"), st1)
  else
    match hist_plot_type with
    | none =>
      analyze_color_main bgr2lab bgr2hsv (maskedPixels rgb_img.pix mask) mask bins none st1
    | some s =>
      if (["ALL", "RGB", "LAB", "HSV"] : List String).contains (pyUpper s) then
        analyze_color_main bgr2lab bgr2hsv (maskedPixels rgb_img.pix mask) mask bins
          (some s) st1
      else
        (.error (.fatal (plotErrMsg s)), st1)

/-- Whether a call result is a normal return. -/
def isOkE {α : Type} : Except PCVError α → Bool
  | .ok _ => true
  | .error _ => false

/-- The value list of a normal return (empty on an exception). -/
def resultData (r : Except PCVError (List String × List MVal × List HistFig)) :
    List MVal :=
  match r with
  | .ok t => t.2.1
  | .error _ => []

/-- The number of masked-in pixels: mask entries that are non-zero. -/
def numMaskedIn (mask : List Nat) : Nat :=
  (mask.filter fun m => m != 0).length

/-- An empty process state for concrete evaluations. -/
def st0 : PState := ⟨0, ⟨[], []⟩⟩

/-! ### Histogram lemmas -/

theorem sum_map_add (l : List Nat) (f g : Nat → Nat) :
    (l.map fun x => f x + g x).sum = (l.map f).sum + (l.map g).sum := by
  induction l with
  | nil => simp
  | cons a l ih => simp [ih]; omega

theorem sum_if_range (k n : Nat) :
    ((List.range n).map fun i => if k == i then 1 else 0).sum
      = if k < n then 1 else 0 := by
  induction n with
  | zero => simp
  | succ n ih =>
    rw [List.range_succ, List.map_append, List.sum_append, ih]
    simp only [List.map_cons, List.map_nil, List.sum_cons, List.sum_nil,
      beq_iff_eq]
    split_ifs <;> omega

theorem filter_count_sum (l : List Nat) (f : Nat → Nat) (n : Nat) :
    ((List.range n).map fun i => (l.filter fun v => f v == i).length).sum
      = (l.filter fun v => decide (f v < n)).length := by
  induction l with
  | nil => simp
  | cons v l ih =>
    have hpt : ((List.range n).map fun i => ((v :: l).filter fun w => f w == i).length)
        = (List.range n).map fun i =>
            ((if f v == i then 1 else 0) + (l.filter fun w => f w == i).length) := by
      refine List.map_congr_left fun i _ => ?_
      rw [List.filter_cons]
      split <;> simp <;> omega
    rw [hpt, sum_map_add, ih, sum_if_range, List.filter_cons]
    by_cases hv : f v < n <;> simp [hv] <;> omega

theorem histBin_lt_iff (bins v : Nat) (hb : 2 ≤ bins) :
    histBin bins v < bins ↔ v < bins - 1 := by
  have h1 : 0 < bins - 1 := by omega
  have hc : 0 < bins := by omega
  unfold histBin
  rw [Nat.div_lt_iff_lt_mul h1]
  constructor
  · intro h
    have h2 : v * bins < (bins - 1) * bins := by
      rw [Nat.mul_comm (bins - 1) bins]; exact h
    exact (Nat.mul_lt_mul_right hc).mp h2
  · intro h
    have h2 : v * bins < (bins - 1) * bins := (Nat.mul_lt_mul_right hc).mpr h
    rw [Nat.mul_comm bins (bins - 1)]
    exact h2

theorem calcHist_length (ch mask : List Nat) (bins : Nat) :
    (calcHist ch mask bins).length = bins := by
  simp [calcHist]

theorem calcHist_sum (ch mask : List Nat) (bins : Nat) (hb : 2 ≤ bins) :
    (calcHist ch mask bins).sum
      = ((maskedIn ch mask).filter fun v => decide (v < bins - 1)).length := by
  unfold calcHist
  rw [filter_count_sum]
  congr 1
  refine List.filter_congr fun v _ => ?_
  simp [histBin_lt_iff bins v hb]

/-! ### Mask lemmas -/

theorem maskedPixels_set (pix : List Px) (mask : List Nat) (j : Nat) (q : Px)
    (h : mask.getD j 1 = 0) :
    maskedPixels (pix.set j q) mask = maskedPixels pix mask := by
  induction pix generalizing mask j with
  | nil => simp
  | cons p ps ih =>
    cases mask with
    | nil => simp [maskedPixels]
    | cons m ms =>
      cases j with
      | zero =>
        simp only [List.getD, List.get?, Option.getD] at h
        simp [maskedPixels, List.set, h]
      | succ j =>
        have h2 : ms.getD j 1 = 0 := by simpa [List.getD] using h
        simp only [List.set]
        simp only [maskedPixels, List.zip_cons_cons, List.map_cons] at ih ⊢
        rw [ih ms j h2]

/-! ### Control-flow lemmas -/

theorem analyze_color_ok (f g : Px → Px) (shape : List Nat) (pix : List Px)
    (mask : List Nat) (bins : Nat) (pt : Option String) (st : PState)
    (h3 : 3 ≤ shape.length) (hm : mask.length = pix.length) (hb : bins ≠ 0)
    (hpt : validPlotType pt = true) :
    analyze_color f g ⟨shape, pix⟩ mask bins pt st =
      analyze_color_main f g (maskedPixels pix mask) mask bins pt
        { st with device := st.device + 1 } := by
  have h3x : ¬ shape.length < 3 := by omega
  cases pt with
  | none => simp [analyze_color, h3x, hm, hb]
  | some s =>
    have hc : pyUpper s = "ALL" ∨ pyUpper s = "RGB" ∨ pyUpper s = "LAB" ∨ pyUpper s = "HSV" := by
      simpa [validPlotType] using hpt
    rcases hc with h | h | h | h <;> simp [analyze_color, h3x, hm, hb, h]

theorem plotErrMsg_ne (s : String) : plotErrMsg s ≠ "rgb_img must be an RGB image" := by
  intro h
  have hl := congrArg String.length h
  rw [plotErrMsg, String.length_append, String.length_append] at hl
  have h1 : ("The histogram plot type was " : String).length = 28 := by decide
  have h2 : (", but can only be one of the following: None, \"all\", \"rgb\", \"lab\", or \"hsv\"!" : String).length = 76 := by decide
  have h3 : ("rgb_img must be an RGB image" : String).length = 28 := by decide
  rw [h1, h2, h3] at hl
  omega

/-! ### Hue-sequence lemmas -/

theorem counterKeys_aux_mem (l acc : List Nat) (x : Nat) :
    x ∈ l.foldl (fun ks y => if y ∈ ks then ks else ks ++ [y]) acc
      ↔ x ∈ acc ∨ x ∈ l := by
  induction l generalizing acc with
  | nil => simp
  | cons a l ih =>
    simp only [List.foldl_cons]
    rw [ih]
    by_cases h : a ∈ acc
    · by_cases hx : x = a <;> simp [h, hx]
    · by_cases hx : x = a <;> simp [h, hx, List.mem_append]

theorem counterKeys_aux_nodup (l acc : List Nat) (h : acc.Nodup) :
    (l.foldl (fun ks y => if y ∈ ks then ks else ks ++ [y]) acc).Nodup := by
  induction l generalizing acc with
  | nil => simpa
  | cons a l ih =>
    simp only [List.foldl_cons]
    apply ih
    by_cases ha : a ∈ acc
    · simpa [ha]
    · simp only [ha, if_false]
      refine List.nodup_append.mpr ⟨h, List.nodup_singleton a, ?_⟩
      intro x hx hxa
      simp only [List.mem_singleton] at hxa
      subst hxa
      exact ha hx

theorem counterKeys_mem (l : List Nat) (x : Nat) : x ∈ counterKeys l ↔ x ∈ l := by
  unfold counterKeys
  rw [counterKeys_aux_mem]
  simp

theorem counterKeys_nodup (l : List Nat) : (counterKeys l).Nodup :=
  counterKeys_aux_nodup l [] List.nodup_nil

theorem insertNat_perm (v : Nat) (l : List Nat) : List.Perm (insertNat v l) (v :: l) := by
  induction l with
  | nil => rfl
  | cons w ws ih =>
    unfold insertNat
    by_cases h : v ≤ w
    · simp [h]
    · simp only [h, if_false]
      exact (ih.cons w).trans (List.Perm.swap v w ws)

theorem sortNat_perm (l : List Nat) : List.Perm (sortNat l) l := by
  induction l with
  | nil => rfl
  | cons x l ih =>
    have : sortNat (x :: l) = insertNat x (sortNat l) := rfl
    rw [this]
    exact (insertNat_perm x (sortNat l)).trans (ih.cons x)

theorem insertByKey_map (c : Nat → Nat) (v : Nat) (l : List Nat) :
    insertByKey (v, c v) (l.map fun w => (w, c w))
      = (insertNat v l).map fun w => (w, c w) := by
  induction l with
  | nil => rfl
  | cons w ws ih =>
    simp only [List.map_cons, insertByKey, insertNat]
    by_cases h : v ≤ w
    · simp [h]
    · simp [h, ih]

theorem sortByKey_map (c : Nat → Nat) (l : List Nat) :
    sortByKey (l.map fun w => (w, c w)) = (sortNat l).map fun w => (w, c w) := by
  induction l with
  | nil => rfl
  | cons x l ih =>
    have h1 : sortByKey ((x :: l).map fun w => (w, c w))
        = insertByKey (x, c x) (sortByKey (l.map fun w => (w, c w))) := rfl
    have h2 : sortNat (x :: l) = insertNat x (sortNat l) := rfl
    rw [h1, ih, insertByKey_map, h2]

theorem filter_fst_map (c : Nat → Nat) (l : List Nat) :
    ((l.map fun v => (v, c v)).filter fun p => p.1 != 0)
      = (l.filter fun v => v != 0).map fun v => (v, c v) := by
  induction l with
  | nil => rfl
  | cons v vs ih =>
    simp only [List.map_cons, List.filter_cons]
    by_cases h : v = 0
    · simp [h, ih]
    · simp [h, ih]

theorem expandCounts_map (c : Nat → Nat) (l : List Nat) :
    expandCounts (l.map fun v => (v, c v))
      = l.flatMap fun v => List.replicate (c v) v := by
  induction l with
  | nil => rfl
  | cons v vs ih => simp [expandCounts, ih]

theorem hueSequence_eq_spec (h : List Nat) :
    hueSequence h = spec_hue_observations h := by
  unfold hueSequence spec_hue_observations pyCounter counterDel
  rw [filter_fst_map, sortByKey_map, expandCounts_map]

theorem count_flatMap_replicate (ks : List Nat) (c : Nat → Nat) (w : Nat)
    (hnd : ks.Nodup) :
    (ks.flatMap fun v => List.replicate (c v) v).count w
      = if w ∈ ks then c w else 0 := by
  induction ks with
  | nil => simp
  | cons v ks ih =>
    have hv : v ∉ ks := (List.nodup_cons.mp hnd).1
    have hnd2 : ks.Nodup := (List.nodup_cons.mp hnd).2
    simp only [List.flatMap_cons, List.count_append, List.count_replicate, ih hnd2]
    by_cases hw : w = v
    · subst hw
      simp [hv]
    · simp only [hw, List.mem_cons, if_neg]
      by_cases hks : w ∈ ks <;> simp [hks, hw] <;> intro hvw <;> exact absurd hvw.symm hw

theorem spec_hue_observations_count (ch : List Nat) (v : Nat) :
    (spec_hue_observations ch).count v = if v = 0 then 0 else ch.count v := by
  unfold spec_hue_observations
  have hnd : (sortNat ((counterKeys ch).filter fun w => w != 0)).Nodup :=
    ((sortNat_perm _).nodup_iff).mpr ((counterKeys_nodup ch).filter _)
  have hmem : ∀ w : Nat,
      w ∈ sortNat ((counterKeys ch).filter fun u => u != 0) ↔ w ∈ ch ∧ w ≠ 0 := by
    intro w
    rw [(sortNat_perm _).mem_iff, List.mem_filter, counterKeys_mem]
    simp
  rw [count_flatMap_replicate _ _ _ hnd]
  by_cases h0 : v = 0
  · subst h0
    simp [hmem]
  · simp only [h0, if_false]
    by_cases hv : v ∈ ch
    · simp [hmem, hv, h0]
    · simp [hmem, hv, h0, List.count_eq_zero.mpr hv]

/-! ### Store lemmas -/

theorem dictGet_dictSet {α : Type} (k k2 : String) (v : α) (m : List (String × α)) :
    dictGet k2 (dictSet k v m) = if k2 = k then some v else dictGet k2 m := by
  induction m with
  | nil =>
    simp only [dictSet, dictGet]
    by_cases h : k2 = k
    · simp [h]
    · rw [if_neg (fun hh : k = k2 => h hh.symm), if_neg h]
  | cons p ps ih =>
    simp only [dictSet]
    by_cases hp : p.1 = k
    · by_cases h2 : k2 = k
      · simp [dictGet, hp, h2]
      · have hkk : ¬ k = k2 := fun hh => h2 hh.symm
        simp [dictGet, hp, h2, hkk]
    · simp only [hp, if_false, dictGet, ih]
      by_cases h2 : k2 = k <;> by_cases h3 : p.1 = k2 <;> simp_all

theorem setField_get_other (ms : List (String × List (String × MVal)))
    (cat cat2 k : String) (v : MVal) (h : cat2 ≠ cat) :
    dictGet cat2 (setField ms cat k v) = dictGet cat2 ms := by
  unfold setField
  cases hg : dictGet cat ms with
  | none => rfl
  | some inner => rw [dictGet_dictSet]; simp [h]

theorem setField_get_same (ms : List (String × List (String × MVal)))
    (cat k : String) (v : MVal) :
    dictGet cat (setField ms cat k v) = (dictGet cat ms).map (dictSet k v) := by
  unfold setField
  cases hg : dictGet cat ms with
  | none => simp [hg]
  | some inner => rw [dictGet_dictSet]; simp [hg]

theorem foldFields_get_other (fields : List (String × MVal))
    (ms : List (String × List (String × MVal))) (cat2 : String)
    (h : cat2 ≠ "color_data") :
    dictGet cat2 (fields.foldl (fun m kv => setField m "color_data" kv.1 kv.2) ms)
      = dictGet cat2 ms := by
  induction fields generalizing ms with
  | nil => rfl
  | cons kv fs ih =>
    simp only [List.foldl_cons]
    rw [ih, setField_get_other _ _ _ _ _ h]

theorem foldFields_inner_unchanged (fields : List (String × MVal))
    (ms : List (String × List (String × MVal))) (k : String)
    (hk : k ∉ fields.map Prod.fst) :
    dictGet2 "color_data" k
        (fields.foldl (fun m kv => setField m "color_data" kv.1 kv.2) ms)
      = dictGet2 "color_data" k ms := by
  induction fields generalizing ms with
  | nil => rfl
  | cons kv fs ih =>
    simp only [List.map_cons, List.mem_cons] at hk
    push_neg at hk
    simp only [List.foldl_cons]
    rw [ih _ hk.2]
    unfold dictGet2
    rw [setField_get_same]
    cases hg : dictGet "color_data" ms with
    | none => simp
    | some inner => simp [dictGet_dictSet, hk.1]

theorem foldFields_inner_get (fields : List (String × MVal))
    (ms : List (String × List (String × MVal))) (k : String) (v : MVal)
    (hnd : (fields.map Prod.fst).Nodup) (hmem : (k, v) ∈ fields)
    (hpres : (dictGet "color_data" ms).isSome = true) :
    dictGet2 "color_data" k
        (fields.foldl (fun m kv => setField m "color_data" kv.1 kv.2) ms)
      = some v := by
  induction fields generalizing ms with
  | nil => simp at hmem
  | cons kv fs ih =>
    simp only [List.map_cons, List.nodup_cons] at hnd
    simp only [List.foldl_cons]
    rcases List.mem_cons.mp hmem with heq | hmem2
    · have hk1 : kv.1 = k := by rw [← heq]
      have hv1 : kv.2 = v := by rw [← heq]
      have hnotin : k ∉ fs.map Prod.fst := by rw [← hk1]; exact hnd.1
      rw [foldFields_inner_unchanged fs _ k hnotin]
      unfold dictGet2
      rw [setField_get_same]
      cases hg : dictGet "color_data" ms with
      | none => rw [hg] at hpres; simp at hpres
      | some inner => simp [dictGet_dictSet, hk1, hv1]
    · have hpres2 :
          (dictGet "color_data" (setField ms "color_data" kv.1 kv.2)).isSome = true := by
        rw [setField_get_same]
        cases hg : dictGet "color_data" ms with
        | none => rw [hg] at hpres; simp at hpres
        | some inner => simp [hg]
      exact ih _ hnd.2 hmem2 hpres2

theorem storeColorData_get (ms : List (String × List (String × MVal)))
    (fields : List (String × MVal)) (k : String) (v : MVal)
    (hnd : (fields.map Prod.fst).Nodup) (hmem : (k, v) ∈ fields) :
    dictGet2 "color_data" k (storeColorData ms fields) = some v := by
  unfold storeColorData
  cases hg : dictGet "color_data" ms with
  | some inner =>
    simp only [hg]
    exact foldFields_inner_get fields ms k v hnd hmem (by simp [hg])
  | none =>
    simp only [hg]
    refine foldFields_inner_get fields _ k v hnd hmem ?_
    rw [dictGet_dictSet]
    simp

theorem storeColorData_get_other (ms : List (String × List (String × MVal)))
    (fields : List (String × MVal)) (cat2 : String) (h : cat2 ≠ "color_data") :
    dictGet cat2 (storeColorData ms fields) = dictGet cat2 ms := by
  unfold storeColorData
  cases hg : dictGet "color_data" ms with
  | some inner => simp only [hg]; rw [foldFields_get_other _ _ _ h]
  | none =>
    simp only [hg]
    rw [foldFields_get_other _ _ _ h, dictGet_dictSet]
    simp [h]

theorem dictSet_filter_cat {α : Type} (cat : String) (x : α) (ms : List (String × α)) :
    ((dictSet cat x ms).filter fun p => p.1 != cat)
      = ms.filter fun p => p.1 != cat := by
  induction ms with
  | nil => simp [dictSet]
  | cons p ps ih =>
    simp only [dictSet]
    by_cases hp : p.1 = cat
    · simp [hp, List.filter_cons]
    · simp [hp, List.filter_cons, ih]

theorem setField_filter (ms : List (String × List (String × MVal)))
    (cat k : String) (v : MVal) :
    ((setField ms cat k v).filter fun p => p.1 != cat)
      = ms.filter fun p => p.1 != cat := by
  unfold setField
  cases dictGet cat ms with
  | none => rfl
  | some inner => rw [dictSet_filter_cat]

theorem foldFields_filter (fields : List (String × MVal))
    (ms : List (String × List (String × MVal))) :
    ((fields.foldl (fun m kv => setField m "color_data" kv.1 kv.2) ms).filter
        fun p => p.1 != "color_data")
      = ms.filter fun p => p.1 != "color_data" := by
  induction fields generalizing ms with
  | nil => rfl
  | cons kv fs ih =>
    simp only [List.foldl_cons]
    rw [ih, setField_filter]

theorem storeColorData_filter (ms : List (String × List (String × MVal)))
    (fields : List (String × MVal)) :
    ((storeColorData ms fields).filter fun p => p.1 != "color_data")
      = ms.filter fun p => p.1 != "color_data" := by
  unfold storeColorData
  cases hg : dictGet "color_data" ms with
  | some inner => simp only [hg]; rw [foldFields_filter]
  | none => simp only [hg]; rw [foldFields_filter, dictSet_filter_cat]

/-- C10: every call to `analyze_color` — including calls that fail the
dimensionality or plot-type validation — leaves the process-wide device
counter at exactly one more than before.  The theorem holds unconditionally,
over every branch of the function, which is exactly the content of "the
increment happens before any validation check": even the earliest possible
failure (the dimensionality check) already observes the incremented counter. -/
theorem analyze_color_increments_device (f g : Px → Px) (img : NpImg) (mask : List Nat)
    (bins : Nat) (pt : Option String) (st : PState) :
    (analyze_color f g img mask bins pt st).2.device = st.device + 1 := by
  unfold analyze_color analyze_color_main
  repeat' split
  all_goals rfl

/-- C6: the call fails with the `fatal_error` "rgb_img must be an RGB image"
exactly when the image array has fewer than 3 dimensions; in particular for
every 3-dimensional image (and any other arguments) this check passes, i.e.
that error is never the result. -/
theorem analyze_color_dim_check (f g : Px → Px) (img : NpImg) (mask : List Nat)
    (bins : Nat) (pt : Option String) (st : PState) :
    (analyze_color f g img mask bins pt st).1
        = Except.error (PCVError.fatal "rgb_img must be an RGB image")
      ↔ img.shape.length < 3 := by
  constructor
  · intro h
    by_contra h3
    unfold analyze_color at h
    rw [if_neg h3] at h
    by_cases hm : mask.length ≠ img.pix.length
    · rw [if_pos hm] at h
      simp at h
    · rw [if_neg hm] at h
      by_cases hb : bins = 0
      · rw [if_pos hb] at h
        simp at h
      · rw [if_neg hb] at h
        cases pt with
        | none => simp [analyze_color_main] at h
        | some s =>
          by_cases hc : (["ALL", "RGB", "LAB", "HSV"] : List String).contains (pyUpper s)
          · simp only [hc, if_true, analyze_color_main] at h
            simp at h
          · simp only [hc, if_false] at h
            simp at h
            exact plotErrMsg_ne s h
  · intro h3
    simp [analyze_color, h3]

/-- C7: whenever `analyze_color` raises — in particular on the
image-dimensionality and plot-type validation failures, the two `fatal_error`
sites — the shared output store (both the `measurements` dict and the
accumulated `images` list) is exactly what it was before the call: no field
under any category is added, changed or removed and no artifact is appended. -/
theorem analyze_color_error_preserves_store (f g : Px → Px) (img : NpImg)
    (mask : List Nat) (bins : Nat) (pt : Option String) (st : PState) (e : PCVError)
    (h : (analyze_color f g img mask bins pt st).1 = Except.error e) :
    (analyze_color f g img mask bins pt st).2.outputs = st.outputs := by
  unfold analyze_color at h ⊢
  by_cases h3 : img.shape.length < 3
  · rw [if_pos h3]
  · rw [if_neg h3] at h ⊢
    by_cases hm : mask.length ≠ img.pix.length
    · rw [if_pos hm]
    · rw [if_neg hm] at h ⊢
      by_cases hb : bins = 0
      · rw [if_pos hb]
      · rw [if_neg hb] at h ⊢
        cases pt with
        | none => simp [analyze_color_main] at h
        | some s =>
          by_cases hc : (["ALL", "RGB", "LAB", "HSV"] : List String).contains (pyUpper s)
          · simp only [hc, if_true, analyze_color_main] at h
            simp at h
          · simp only [hc, Bool.false_eq_true, if_false]

/-- C4: past the earlier fallible steps, a non-null plot-type string makes
the call fail with the plot-type `fatal_error` exactly when its upper-cased
form is not one of ALL, RGB, LAB, HSV — so any case variant of "all", "rgb",
"lab", "hsv" raises no such error — and the null selector not only avoids the
error but completes normally. -/
theorem analyze_color_plot_type_validation (f g : Px → Px) (shape : List Nat)
    (pix : List Px) (mask : List Nat) (bins : Nat) (st : PState) (s : String)
    (h3 : 3 ≤ shape.length) (hm : mask.length = pix.length) (hb : bins ≠ 0) :
    ((analyze_color f g ⟨shape, pix⟩ mask bins (some s) st).1
        = Except.error (PCVError.fatal (plotErrMsg s))
      ↔ (["ALL", "RGB", "LAB", "HSV"] : List String).contains (pyUpper s) = false)
    ∧ isOkE (analyze_color f g ⟨shape, pix⟩ mask bins none st).1 = true := by
  have h3x : ¬ shape.length < 3 := by omega
  constructor
  · constructor
    · intro h
      by_contra hc
      have hc2 : (["ALL", "RGB", "LAB", "HSV"] : List String).contains (pyUpper s) = true := by
        cases hcb : (["ALL", "RGB", "LAB", "HSV"] : List String).contains (pyUpper s)
        · exact absurd hcb hc
        · rfl
      rw [analyze_color_ok f g shape pix mask bins (some s) st h3 hm hb hc2] at h
      simp [analyze_color_main] at h
    · intro hc
      unfold analyze_color
      rw [if_neg h3x]
      rw [if_neg (by simp [hm] : ¬ mask.length ≠ (⟨shape, pix⟩ : NpImg).pix.length)]
      rw [if_neg hb]
      have hcn : ¬ ((["ALL", "RGB", "LAB", "HSV"] : List String).contains (pyUpper s) = true) := by
        rw [hc]
        exact Bool.false_ne_true
      simp only [hcn, hc, Bool.false_eq_true, if_false]
  · rw [analyze_color_ok f g shape pix mask bins none st h3 hm hb rfl]
    rfl

theorem colorFieldsOf_keys (f g : Px → Px) (masked : List Px) (mask : List Nat)
    (bins : Nat) :
    (colorFieldsOf f g masked mask bins).map Prod.fst
      = ["bin-number", "bin-values", "blue", "green", "red", "lightness",
         "green-magenta", "blue-yellow", "hue", "saturation", "value",
         "mean", "standard-deviation", "median"] := by
  simp [colorFieldsOf, colorFields, histsOf, channels9, histNames]

/-- C5: every successful call returns the 15-element header list and the
15-element value list, and the plot-artifact list is empty for a null
hist_plot_type and a single figure for a valid non-null one (any case
variant). -/
theorem analyze_color_output_shape (f g : Px → Px) (shape : List Nat) (pix : List Px)
    (mask : List Nat) (bins : Nat) (pt : Option String) (st : PState)
    (h3 : 3 ≤ shape.length) (hm : mask.length = pix.length) (hb : bins ≠ 0)
    (hpt : validPlotType pt = true) :
    (analyze_color f g ⟨shape, pix⟩ mask bins pt st).1
        = Except.ok (color_header, dataOf f g (maskedPixels pix mask) mask bins, figsOf pt)
    ∧ color_header.length = 15
    ∧ (dataOf f g (maskedPixels pix mask) mask bins).length = 15
    ∧ (figsOf pt).length = (match pt with | none => 0 | some _ => 1) := by
  rw [analyze_color_ok f g shape pix mask bins pt st h3 hm hb hpt]
  refine ⟨rfl, by decide, ?_, ?_⟩
  · simp [dataOf, histsOf, channels9]
  · cases pt with
    | none => rfl
    | some s =>
      have hc : pyUpper s = "ALL" ∨ pyUpper s = "RGB" ∨ pyUpper s = "LAB" ∨ pyUpper s = "HSV" := by
        simpa [validPlotType] using hpt
      rcases hc with h | h | h | h <;> simp [figsOf, h]

/-- C1 (amended): for every conversion pair, 3-dimensional image, mask of
matching size and bin count with 2 ≤ bins ≤ 256, the call succeeds, its value
list carries the nine histograms `calcHist` of the quantized channels, and
each of the nine histograms has exactly `bins` entries, all non-negative
counts, with the entries summing to the number of masked-in pixels whose
quantized channel value is strictly below `bins - 1` — not, as the claim
stated, to the number of all masked-in pixels: the histogram range
`[0, bins - 1]` is upper-exclusive, so pixels quantized to the top level
`bins - 1` are dropped (see the counterexample).  Masked-out pixels never
contribute: rewriting the image at any position where the mask is 0 leaves
the entire call result unchanged. -/
theorem analyze_color_histograms (f g : Px → Px) (shape : List Nat) (pix : List Px)
    (mask : List Nat) (bins : Nat) (st : PState)
    (h3 : 3 ≤ shape.length) (hm : mask.length = pix.length)
    (hb2 : 2 ≤ bins) (hb256 : bins ≤ 256) :
    isOkE (analyze_color f g ⟨shape, pix⟩ mask bins none st).1 = true
    ∧ resultData (analyze_color f g ⟨shape, pix⟩ mask bins none st).1
        = dataOf f g (maskedPixels pix mask) mask bins
    ∧ (∀ ch ∈ channels9 f g (maskedPixels pix mask),
        (calcHist (ch.map (normQuant bins)) mask bins).length = bins
        ∧ (∀ e ∈ calcHist (ch.map (normQuant bins)) mask bins, 0 ≤ e)
        ∧ (calcHist (ch.map (normQuant bins)) mask bins).sum
            = ((maskedIn (ch.map (normQuant bins)) mask).filter
                fun v => decide (v < bins - 1)).length)
    ∧ (∀ (j : Nat) (q : Px), mask.getD j 1 = 0 →
        analyze_color f g ⟨shape, pix.set j q⟩ mask bins none st
          = analyze_color f g ⟨shape, pix⟩ mask bins none st) := by
  have hb : bins ≠ 0 := by omega
  have hok := analyze_color_ok f g shape pix mask bins none st h3 hm hb rfl
  refine ⟨?_, ?_, ?_, ?_⟩
  · rw [hok]; rfl
  · rw [hok]; rfl
  · intro ch _
    exact ⟨calcHist_length _ _ _, fun e _ => Nat.zero_le e, calcHist_sum _ _ _ hb2⟩
  · intro j q hj
    have hm2 : mask.length = (pix.set j q).length := by rw [List.length_set]; exact hm
    rw [analyze_color_ok f g shape (pix.set j q) mask bins none st h3 hm2 hb rfl, hok,
      maskedPixels_set pix mask j q hj]

/-- C2 (amended): on every successful call the three returned statistics are
the circular mean and circular standard deviation with period 180 and the
ordinary (non-circular) median of the sequence obtained by the algorithm
worded in the spec — count frequencies, discard the entry for hue 0, expand value `v`
to `count[v]` copies — applied to the RAW hue channel of the masked image
(the `h` plane as split from the HSV conversion), not to the quantized hue
channel as the claim stated (see the counterexample).  The final conjunct
checks the expansion: every nonzero hue value appears in the sequence with
exactly its frequency in the flattened channel, and hue 0 never does. -/
theorem analyze_color_hue_stats (f g : Px → Px) (shape : List Nat) (pix : List Px)
    (mask : List Nat) (bins : Nat) (pt : Option String) (st : PState)
    (h3 : 3 ≤ shape.length) (hm : mask.length = pix.length) (hb : bins ≠ 0)
    (hpt : validPlotType pt = true) :
    (resultData (analyze_color f g ⟨shape, pix⟩ mask bins pt st).1).get? 12
        = some (MVal.stat (scipyCircmean
            (spec_hue_observations (hueRawOf g (maskedPixels pix mask))) 180))
    ∧ (resultData (analyze_color f g ⟨shape, pix⟩ mask bins pt st).1).get? 13
        = some (MVal.stat (scipyCircstd
            (spec_hue_observations (hueRawOf g (maskedPixels pix mask))) 180))
    ∧ (resultData (analyze_color f g ⟨shape, pix⟩ mask bins pt st).1).get? 14
        = some (MVal.stat (npMedian
            (spec_hue_observations (hueRawOf g (maskedPixels pix mask)))))
    ∧ (∀ v : Nat,
        (spec_hue_observations (hueRawOf g (maskedPixels pix mask))).count v
          = if v = 0 then 0 else (hueRawOf g (maskedPixels pix mask)).count v) := by
  rw [analyze_color_ok f g shape pix mask bins pt st h3 hm hb hpt]
  refine ⟨?_, ?_, ?_, fun v => spec_hue_observations_count _ v⟩
  all_goals
    simp [resultData, analyze_color_main, dataOf, histsOf, channels9,
      hueSequence_eq_spec]

/-- C9: if the raw hue channel of the masked image contains no pixel of value
0, the background-removal step (`del c[0]`, which `Counter.__delitem__` makes
a no-op for a missing key) loses nothing: the call succeeds and the hue
sequence fed to the circular statistics is a permutation of the full
flattened hue channel — every hue value keeps its exact multiplicity. -/
theorem analyze_color_no_zero_hue (f g : Px → Px) (shape : List Nat) (pix : List Px)
    (mask : List Nat) (bins : Nat) (pt : Option String) (st : PState)
    (h3 : 3 ≤ shape.length) (hm : mask.length = pix.length) (hb : bins ≠ 0)
    (hpt : validPlotType pt = true)
    (h0 : (0 : Nat) ∉ hueRawOf g (maskedPixels pix mask)) :
    isOkE (analyze_color f g ⟨shape, pix⟩ mask bins pt st).1 = true
    ∧ (∀ v : Nat, (hueSequence (hueRawOf g (maskedPixels pix mask))).count v
        = (hueRawOf g (maskedPixels pix mask)).count v)
    ∧ List.Perm (hueSequence (hueRawOf g (maskedPixels pix mask)))
        (hueRawOf g (maskedPixels pix mask)) := by
  have hcnt : ∀ v : Nat, (hueSequence (hueRawOf g (maskedPixels pix mask))).count v
      = (hueRawOf g (maskedPixels pix mask)).count v := by
    intro v
    rw [hueSequence_eq_spec, spec_hue_observations_count]
    by_cases hv : v = 0
    · subst hv
      rw [if_pos rfl]
      exact (List.count_eq_zero.mpr h0).symm
    · rw [if_neg hv]
  refine ⟨?_, hcnt, ?_⟩
  · rw [analyze_color_ok f g shape pix mask bins pt st h3 hm hb hpt]
    rfl
  · exact List.perm_iff_count.mpr hcnt

theorem analyze_color_main_snd (f g : Px → Px) (masked : List Px) (mask : List Nat)
    (bins : Nat) (pt : Option String) (st : PState) :
    (analyze_color_main f g masked mask bins pt st).2
      = { st with outputs :=
            { measurements := storeColorData st.outputs.measurements
                (colorFieldsOf f g masked mask bins),
              images := st.outputs.images ++ [figsOf pt] } } := rfl

/-- C8: every successful call touches only the `color_data` category of the
shared measurements store — the store filtered to all other categories is
unchanged — writes each of its 14 fields under `color_data` to exactly this
values of this call regardless of what was stored before (so a repeated call
overwrites the same-named fields), and appends exactly the plot-artifact
list of this call to the separate accumulating images list. -/
theorem analyze_color_store_effects (f g : Px → Px) (shape : List Nat) (pix : List Px)
    (mask : List Nat) (bins : Nat) (pt : Option String) (st : PState)
    (h3 : 3 ≤ shape.length) (hm : mask.length = pix.length) (hb : bins ≠ 0)
    (hpt : validPlotType pt = true) :
    ((analyze_color f g ⟨shape, pix⟩ mask bins pt st).2.outputs.measurements.filter
        fun p => p.1 != "color_data")
      = (st.outputs.measurements.filter fun p => p.1 != "color_data")
    ∧ ((colorFieldsOf f g (maskedPixels pix mask) mask bins).all fun kv =>
        dictGet2 "color_data" kv.1
            (analyze_color f g ⟨shape, pix⟩ mask bins pt st).2.outputs.measurements
          == some kv.2) = true
    ∧ (analyze_color f g ⟨shape, pix⟩ mask bins pt st).2.outputs.images
        = st.outputs.images ++ [figsOf pt] := by
  have hx : (analyze_color f g ⟨shape, pix⟩ mask bins pt st).2.outputs.measurements
      = storeColorData st.outputs.measurements
          (colorFieldsOf f g (maskedPixels pix mask) mask bins) := by
    rw [analyze_color_ok f g shape pix mask bins pt st h3 hm hb hpt,
      analyze_color_main_snd]
  have hy : (analyze_color f g ⟨shape, pix⟩ mask bins pt st).2.outputs.images
      = st.outputs.images ++ [figsOf pt] := by
    rw [analyze_color_ok f g shape pix mask bins pt st h3 hm hb hpt,
      analyze_color_main_snd]
  have hnd : ((colorFieldsOf f g (maskedPixels pix mask) mask bins).map Prod.fst).Nodup := by
    rw [colorFieldsOf_keys]
    decide
  refine ⟨?_, ?_, hy⟩
  · rw [hx]
    exact storeColorData_filter _ _
  · rw [List.all_eq_true]
    intro kv hkv
    have hmem : (kv.1, kv.2) ∈ colorFieldsOf f g (maskedPixels pix mask) mask bins := by
      simpa using hkv
    rw [hx, beq_iff_eq]
    exact storeColorData_get _ _ kv.1 kv.2 hnd hmem

set_option maxHeartbeats 2000000 in
/-- C1 counterexample: a 1-by-1 white image (BGR = (255,255,255)), mask 255,
bins = 4.  The blue value 255 quantizes to 3 = bins - 1, which falls outside
the histogram range `[0, 3)`, so the returned blue histogram (value-list
entry 3) is [0,0,0,0] with sum 0, while the image has 1 masked-in pixel —
refuting the claim that each histogram sums to the number of masked-in
pixels.  The blue channel bypasses the color-space conversions, so the
identity instantiation of those delegated parameters is immaterial here. -/
theorem analyze_color_hist_sum_cex :
    (resultData (analyze_color idPx idPx ⟨[1, 1, 3], [⟨255, 255, 255⟩]⟩ [255] 4 none st0).1).get? 3
        = some (MVal.nats [0, 0, 0, 0])
    ∧ ([0, 0, 0, 0] : List Nat).sum ≠ numMaskedIn [255] := by decide

set_option maxHeartbeats 2000000 in
/-- C2 counterexample: a 1-by-1 image whose hue plane holds 120 (under the
identity conversion; a pure-blue BGR pixel has the same raw hue 120 under the
real conversion), mask 255, bins = 4.  The returned circular mean is the
statistic of the raw sequence [120], while the quantized hue channel is [1]
(120·4/256 = 1), and the spec algorithm applied to that quantized channel
yields the statistic of [1] — a different value, refuting the claim that the
statistics are computed from the quantized hue channel. -/
theorem analyze_color_hue_stats_cex :
    (resultData (analyze_color idPx idPx ⟨[1, 1, 3], [⟨120, 0, 0⟩]⟩ [255] 4 none st0).1).get? 12
        = some (MVal.stat (Stat.circmean 180 [120]))
    ∧ (hueRawOf idPx (maskedPixels [⟨120, 0, 0⟩] [255])).map (normQuant 4) = [1]
    ∧ some (MVal.stat (Stat.circmean 180 [120]))
        ≠ some (MVal.stat (scipyCircmean (spec_hue_observations [1]) 180)) := by decide

set_option maxHeartbeats 2000000 in
/-- C3 evidence (code bug): on a 1-by-1 black image the hue channel is all
zeros, so after background removal the hue sequence is empty — yet the call
returns normally with NaN (scipy/numpy on an empty sample) for the circular
mean, circular standard deviation and median (value-list entries 12-14),
instead of raising the `DegenerateInput` error the spec requires to be
added.  The spec itself marks this condition as unhandled in the original
code. -/
theorem analyze_color_zero_hue_returns_nan :
    hueRawOf idPx (maskedPixels [⟨0, 0, 0⟩] [255]) = [0]
    ∧ isOkE (analyze_color idPx idPx ⟨[1, 1, 3], [⟨0, 0, 0⟩]⟩ [255] 4 none st0).1 = true
    ∧ (resultData (analyze_color idPx idPx ⟨[1, 1, 3], [⟨0, 0, 0⟩]⟩ [255] 4 none st0).1).get? 12
        = some (MVal.stat Stat.nan)
    ∧ (resultData (analyze_color idPx idPx ⟨[1, 1, 3], [⟨0, 0, 0⟩]⟩ [255] 4 none st0).1).get? 13
        = some (MVal.stat Stat.nan)
    ∧ (resultData (analyze_color idPx idPx ⟨[1, 1, 3], [⟨0, 0, 0⟩]⟩ [255] 4 none st0).1).get? 14
        = some (MVal.stat Stat.nan) := by decide

theorem analyze_color_histograms_witness :
    3 ≤ ([1, 1, 3] : List Nat).length
    ∧ ([255] : List Nat).length = ([⟨10, 20, 200⟩] : List Px).length
    ∧ 2 ≤ 4 ∧ 4 ≤ 256
    ∧ (isOkE (analyze_color idPx idPx ⟨[1, 1, 3], [⟨10, 20, 200⟩]⟩ [255] 4 none st0).1 = true
      ∧ resultData (analyze_color idPx idPx ⟨[1, 1, 3], [⟨10, 20, 200⟩]⟩ [255] 4 none st0).1
          = dataOf idPx idPx (maskedPixels [⟨10, 20, 200⟩] [255]) [255] 4
      ∧ (∀ ch ∈ channels9 idPx idPx (maskedPixels [⟨10, 20, 200⟩] [255]),
          (calcHist (ch.map (normQuant 4)) [255] 4).length = 4
          ∧ (∀ e ∈ calcHist (ch.map (normQuant 4)) [255] 4, 0 ≤ e)
          ∧ (calcHist (ch.map (normQuant 4)) [255] 4).sum
              = ((maskedIn (ch.map (normQuant 4)) [255]).filter
                  fun v => decide (v < 4 - 1)).length)
      ∧ (∀ (j : Nat) (q : Px), ([255] : List Nat).getD j 1 = 0 →
          analyze_color idPx idPx ⟨[1, 1, 3], ([⟨10, 20, 200⟩] : List Px).set j q⟩
              [255] 4 none st0
            = analyze_color idPx idPx ⟨[1, 1, 3], [⟨10, 20, 200⟩]⟩ [255] 4 none st0)) :=
  ⟨by decide, by decide, by decide, by decide,
   analyze_color_histograms idPx idPx [1, 1, 3] [⟨10, 20, 200⟩] [255] 4 st0
     (by decide) (by decide) (by decide) (by decide)⟩

theorem analyze_color_hue_stats_witness :
    3 ≤ ([1, 1, 3] : List Nat).length
    ∧ ([255] : List Nat).length = ([⟨10, 20, 200⟩] : List Px).length
    ∧ (4 : Nat) ≠ 0
    ∧ validPlotType none = true
    ∧ ((resultData (analyze_color idPx idPx ⟨[1, 1, 3], [⟨10, 20, 200⟩]⟩ [255] 4 none st0).1).get? 12
          = some (MVal.stat (scipyCircmean
              (spec_hue_observations (hueRawOf idPx (maskedPixels [⟨10, 20, 200⟩] [255]))) 180))
      ∧ (resultData (analyze_color idPx idPx ⟨[1, 1, 3], [⟨10, 20, 200⟩]⟩ [255] 4 none st0).1).get? 13
          = some (MVal.stat (scipyCircstd
              (spec_hue_observations (hueRawOf idPx (maskedPixels [⟨10, 20, 200⟩] [255]))) 180))
      ∧ (resultData (analyze_color idPx idPx ⟨[1, 1, 3], [⟨10, 20, 200⟩]⟩ [255] 4 none st0).1).get? 14
          = some (MVal.stat (npMedian
              (spec_hue_observations (hueRawOf idPx (maskedPixels [⟨10, 20, 200⟩] [255])))))
      ∧ (∀ v : Nat,
          (spec_hue_observations (hueRawOf idPx (maskedPixels [⟨10, 20, 200⟩] [255]))).count v
            = if v = 0 then 0
              else (hueRawOf idPx (maskedPixels [⟨10, 20, 200⟩] [255])).count v)) :=
  ⟨by decide, by decide, by decide, by decide,
   analyze_color_hue_stats idPx idPx [1, 1, 3] [⟨10, 20, 200⟩] [255] 4 none st0
     (by decide) (by decide) (by decide) (by decide)⟩

theorem analyze_color_plot_type_validation_witness :
    3 ≤ ([1, 1, 3] : List Nat).length
    ∧ ([255] : List Nat).length = ([⟨10, 20, 200⟩] : List Px).length
    ∧ (4 : Nat) ≠ 0
    ∧ (((analyze_color idPx idPx ⟨[1, 1, 3], [⟨10, 20, 200⟩]⟩ [255] 4 (some "xyz") st0).1
          = Except.error (PCVError.fatal (plotErrMsg "xyz"))
        ↔ (["ALL", "RGB", "LAB", "HSV"] : List String).contains (pyUpper "xyz") = false)
      ∧ isOkE (analyze_color idPx idPx ⟨[1, 1, 3], [⟨10, 20, 200⟩]⟩ [255] 4 none st0).1 = true) :=
  ⟨by decide, by decide, by decide,
   analyze_color_plot_type_validation idPx idPx [1, 1, 3] [⟨10, 20, 200⟩] [255] 4 st0 "xyz"
     (by decide) (by decide) (by decide)⟩

theorem analyze_color_output_shape_witness :
    3 ≤ ([1, 1, 3] : List Nat).length
    ∧ ([255] : List Nat).length = ([⟨10, 20, 200⟩] : List Px).length
    ∧ (4 : Nat) ≠ 0
    ∧ validPlotType (some "rGb") = true
    ∧ ((analyze_color idPx idPx ⟨[1, 1, 3], [⟨10, 20, 200⟩]⟩ [255] 4 (some "rGb") st0).1
        = Except.ok (color_header,
            dataOf idPx idPx (maskedPixels [⟨10, 20, 200⟩] [255]) [255] 4,
            figsOf (some "rGb"))
      ∧ color_header.length = 15
      ∧ (dataOf idPx idPx (maskedPixels [⟨10, 20, 200⟩] [255]) [255] 4).length = 15
      ∧ (figsOf (some "rGb")).length
          = (match (some "rGb" : Option String) with | none => 0 | some _ => 1)) :=
  ⟨by decide, by decide, by decide, by decide,
   analyze_color_output_shape idPx idPx [1, 1, 3] [⟨10, 20, 200⟩] [255] 4 (some "rGb") st0
     (by decide) (by decide) (by decide) (by decide)⟩

theorem analyze_color_error_preserves_store_witness :
    (analyze_color idPx idPx ⟨[2, 2], []⟩ [255] 4 none st0).1
        = Except.error (PCVError.fatal "rgb_img must be an RGB image")
    ∧ (analyze_color idPx idPx ⟨[2, 2], []⟩ [255] 4 none st0).2.outputs = st0.outputs :=
  ⟨by decide,
   analyze_color_error_preserves_store idPx idPx ⟨[2, 2], []⟩ [255] 4 none st0
     (PCVError.fatal "rgb_img must be an RGB image") (by decide)⟩

theorem analyze_color_store_effects_witness :
    3 ≤ ([1, 1, 3] : List Nat).length
    ∧ ([255] : List Nat).length = ([⟨10, 20, 200⟩] : List Px).length
    ∧ (4 : Nat) ≠ 0
    ∧ validPlotType none = true
    ∧ (((analyze_color idPx idPx ⟨[1, 1, 3], [⟨10, 20, 200⟩]⟩ [255] 4 none st0).2.outputs.measurements.filter
          fun p => p.1 != "color_data")
        = (st0.outputs.measurements.filter fun p => p.1 != "color_data")
      ∧ ((colorFieldsOf idPx idPx (maskedPixels [⟨10, 20, 200⟩] [255]) [255] 4).all fun kv =>
          dictGet2 "color_data" kv.1
              (analyze_color idPx idPx ⟨[1, 1, 3], [⟨10, 20, 200⟩]⟩ [255] 4 none st0).2.outputs.measurements
            == some kv.2) = true
      ∧ (analyze_color idPx idPx ⟨[1, 1, 3], [⟨10, 20, 200⟩]⟩ [255] 4 none st0).2.outputs.images
          = st0.outputs.images ++ [figsOf none]) :=
  ⟨by decide, by decide, by decide, by decide,
   analyze_color_store_effects idPx idPx [1, 1, 3] [⟨10, 20, 200⟩] [255] 4 none st0
     (by decide) (by decide) (by decide) (by decide)⟩

theorem analyze_color_no_zero_hue_witness :
    3 ≤ ([1, 1, 3] : List Nat).length
    ∧ ([255] : List Nat).length = ([⟨5, 0, 0⟩] : List Px).length
    ∧ (4 : Nat) ≠ 0
    ∧ validPlotType none = true
    ∧ (0 : Nat) ∉ hueRawOf idPx (maskedPixels [⟨5, 0, 0⟩] [255])
    ∧ (isOkE (analyze_color idPx idPx ⟨[1, 1, 3], [⟨5, 0, 0⟩]⟩ [255] 4 none st0).1 = true
      ∧ (∀ v : Nat, (hueSequence (hueRawOf idPx (maskedPixels [⟨5, 0, 0⟩] [255]))).count v
          = (hueRawOf idPx (maskedPixels [⟨5, 0, 0⟩] [255])).count v)
      ∧ List.Perm (hueSequence (hueRawOf idPx (maskedPixels [⟨5, 0, 0⟩] [255])))
          (hueRawOf idPx (maskedPixels [⟨5, 0, 0⟩] [255]))) :=
  ⟨by decide, by decide, by decide, by decide, by decide,
   analyze_color_no_zero_hue idPx idPx [1, 1, 3] [⟨5, 0, 0⟩] [255] 4 none st0
     (by decide) (by decide) (by decide) (by decide) (by decide)⟩
